import Mathlib

/-!
Shallow embedding of the cache, permission and rate-limit services of the
FastAPI starter boilerplate.

Sources embedded here:
- app/services/cache/in_memory_cache_service.py (CacheEntry, InMemoryCacheService)
- app/services/cache/redis_cache_service.py (RedisCacheService.increment and the
  key/expiry bookkeeping it touches)
- app/services/cache/cache_factory.py (get_cache_service)
- app/services/rate_limit_service.py (RateLimitService)
- app/services/permission_service.py (PermissionService)

Modelling conventions: wall-clock time (Python time.time()) is an explicit ℚ
argument threaded through every operation; Python dicts and the Redis keyspace
are total functions String → Option _; async methods become pure state-passing
functions returning (result, new state).
-/

/-- A string-keyed finite-ish map, the shape of both the in-process dict and the
Redis keyspace. -/
abbrev KvMap (β : Type) := String → Option β

/-- The empty map (fresh dict / flushed keyspace). -/
def KvMap.empty {β : Type} : KvMap β := fun _ => none

/-- Dict assignment d[k] = v (overwrites any previous binding). -/
def KvMap.insert {β : Type} (m : KvMap β) (k : String) (v : β) : KvMap β :=
  fun k2 => if k2 = k then some v else m k2

/-- Dict deletion del d[k]. -/
def KvMap.erase {β : Type} (m : KvMap β) (k : String) : KvMap β :=
  fun k2 => if k2 = k then none else m k2

/-- CacheEntry from in_memory_cache_service.py: value, sliding_expiration
(int | None, seconds), last_accessed (time.time() float, modelled as ℚ). -/
structure CacheEntry (α : Type) where
  value : α
  sliding_expiration : Option ℤ
  last_accessed : ℚ
deriving DecidableEq

/-- CacheEntry.is_expired: no sliding expiration means never expired; otherwise
expired when time.time() - last_accessed > sliding_expiration (strict). -/
def CacheEntry.is_expired {α : Type} (e : CacheEntry α) (now : ℚ) : Bool :=
  match e.sliding_expiration with
  | none => false
  | some s => decide (now - e.last_accessed > (s : ℚ))

/-- CacheEntry.refresh: reset last_accessed to the current time. -/
def CacheEntry.refresh {α : Type} (e : CacheEntry α) (now : ℚ) : CacheEntry α :=
  { e with last_accessed := now }

/-- The in-process backend's dict of entries. -/
abbrev Cache (α : Type) := KvMap (CacheEntry α)

/-- InMemoryCacheService.get: miss on absent key; an expired entry is deleted
and reported as a miss; a live entry is refreshed (sliding semantics) and its
value returned. -/
def InMemoryCacheService.get {α : Type} (c : Cache α) (k : String) (now : ℚ) :
    Option α × Cache α :=
  match c k with
  | none => (none, c)
  | some e =>
    if e.is_expired now then (none, KvMap.erase c k)
    else (some e.value, KvMap.insert c k (e.refresh now))

/-- InMemoryCacheService.set: store a fresh entry, last_accessed = now. -/
def InMemoryCacheService.set {α : Type} (c : Cache α) (k : String) (v : α)
    (sliding : Option ℤ) (now : ℚ) : Cache α :=
  KvMap.insert c k ⟨v, sliding, now⟩

/-- InMemoryCacheService.refresh: false on absent/expired (expired is removed),
otherwise reset the timer. -/
def InMemoryCacheService.refresh {α : Type} (c : Cache α) (k : String) (now : ℚ) :
    Bool × Cache α :=
  match c k with
  | none => (false, c)
  | some e =>
    if e.is_expired now then (false, KvMap.erase c k)
    else (true, KvMap.insert c k (e.refresh now))

/-- InMemoryCacheService.remove: delete the binding, report whether it existed. -/
def InMemoryCacheService.remove {α : Type} (c : Cache α) (k : String) :
    Bool × Cache α :=
  match c k with
  | none => (false, c)
  | some _ => (true, KvMap.erase c k)

/-- InMemoryCacheService.exists (named exists_key here, exists is a keyword):
lazy-expiry check identical to get but without refreshing. -/
def InMemoryCacheService.exists_key {α : Type} (c : Cache α) (k : String) (now : ℚ) :
    Bool × Cache α :=
  match c k with
  | none => (false, c)
  | some e =>
    if e.is_expired now then (false, KvMap.erase c k)
    else (true, c)

/-- InMemoryCacheService.clear: drop every entry. -/
def InMemoryCacheService.clear {α : Type} (_ : Cache α) : Cache α :=
  KvMap.empty

/-- InMemoryCacheService._cleanup_expired: the periodic sweep deleting exactly
the expired entries. -/
def InMemoryCacheService.cleanup_expired {α : Type} (c : Cache α) (now : ℚ) :
    Cache α :=
  fun k =>
    match c k with
    | none => none
    | some e => if e.is_expired now then none else some e

/-- Methods defined by the abstract base class ICacheService
(cache_service_interface.py). -/
def ICacheService.methods : List String :=
  ["get", "set", "refresh", "remove", "exists", "clear", "get_stats"]

/-- Methods defined by InMemoryCacheService (in_memory_cache_service.py). -/
def InMemoryCacheService.methods : List String :=
  ["__init__", "start_cleanup_task", "stop_cleanup_task", "_cleanup_loop",
   "_cleanup_expired", "get", "set", "refresh", "remove", "exists", "clear",
   "get_stats"]

/-- Methods defined by RedisCacheService (redis_cache_service.py). -/
def RedisCacheService.methods : List String :=
  ["__init__", "get", "set", "increment", "_refresh_if_sliding", "refresh",
   "remove", "exists", "clear", "get_stats", "close"]

/-- A Redis key holding an integer counter together with its recorded expiry
instant (none = no TTL set). -/
structure RedisEntry where
  value : ℤ
  expires_at : Option ℚ
deriving DecidableEq

/-- The Redis keyspace restricted to the counter keys the services use. -/
abbrev RedisState := KvMap RedisEntry

/-- Redis INCRBY: create the key at delta (no TTL) if absent, else add delta;
the existing TTL is untouched. Returns the new value. -/
def RedisCacheService.incrby (st : RedisState) (k : String) (delta : ℤ) :
    ℤ × RedisState :=
  match st k with
  | none => (delta, KvMap.insert st k ⟨delta, none⟩)
  | some e => (e.value + delta, KvMap.insert st k ⟨e.value + delta, e.expires_at⟩)

/-- Redis EXPIRE: record expiry now + ttl on an existing key. -/
def RedisCacheService.expire (st : RedisState) (k : String) (ttl : ℤ) (now : ℚ) :
    RedisState :=
  match st k with
  | none => st
  | some e => KvMap.insert st k ⟨e.value, some (now + (ttl : ℚ))⟩

/-- RedisCacheService.increment: INCRBY, then EXPIRE only when a ttl was given
and the returned value equals delta (first-write-TTL policy). -/
def RedisCacheService.increment (st : RedisState) (k : String) (delta : ℤ)
    (ttl : Option ℤ) (now : ℚ) : ℤ × RedisState :=
  let r := RedisCacheService.incrby st k delta
  match ttl with
  | none => r
  | some t => if r.1 = delta then (r.1, RedisCacheService.expire r.2 k t now) else r

/-- Recorded expiry instant of a key in the Redis model. -/
def expiryOf (st : RedisState) (k : String) : Option ℚ :=
  match st k with
  | none => none
  | some e => e.expires_at

/-- Python int(x) on a float: truncation toward zero. -/
def pyInt (q : ℚ) : ℤ := if 0 ≤ q then ⌊q⌋ else ⌈q⌉

/-- The cache backends selectable through the factory. -/
inductive CacheBackend
  | memory
  | redis
deriving DecidableEq

/-- Python str.lower() for the ASCII configuration strings involved. -/
def pyLower (s : String) : String := String.mk (s.data.map Char.toLower)

/-- cache_factory.get_cache_service: lower-case the configured CACHE_TYPE;
"redis" selects the Redis backend, anything else falls into the default
in-memory branch. The Except carries a would-be construction error; the source
function has no raise path, so every input yields Except.ok. -/
def get_cache_service (cache_type_setting : String) : Except String CacheBackend :=
  let cache_type := pyLower cache_type_setting
  if cache_type = "redis" then Except.ok CacheBackend.redis
  else Except.ok CacheBackend.memory

/-- RateLimitResult from rate_limit_service_interface.py. -/
structure RateLimitResult where
  is_limited : Bool
  limit : ℤ
  remaining : ℤ
  reset_at : ℤ
  retry_after : ℤ
deriving DecidableEq

/-- The window_start line of RateLimitService._get_window_key:
(current_time // window) * window with current_time = int(time.time()). -/
def RateLimitService.window_start (window : ℤ) (now : ℚ) : ℤ :=
  Int.fdiv (pyInt now) window * window

/-- RateLimitService._get_window_key: cache key
"ratelimit:{key}:{window_start}" and the window reset timestamp. -/
def RateLimitService.get_window_key (key : String) (window : ℤ) (now : ℚ) :
    String × ℤ :=
  let ws := RateLimitService.window_start window now
  ("ratelimit:" ++ key ++ ":" ++ toString ws, ws + window)

/-- RateLimitService.check_rate_limit over the Redis backend (the one backend
implementing increment): atomic increment with ttl = window_seconds + 1, then
assemble the result. -/
def RateLimitService.check_rate_limit (cache : RedisState)
    (max_requests window_seconds : ℤ) (key : String) (now : ℚ) :
    RateLimitResult × RedisState :=
  let wk := RateLimitService.get_window_key key window_seconds now
  let current_time := pyInt now
  let retry_after := max 0 (wk.2 - current_time)
  let r := RedisCacheService.increment cache wk.1 1 (some (window_seconds + 1)) now
  let is_limited : Bool := decide (r.1 > max_requests)
  ({ is_limited := is_limited,
     limit := max_requests,
     remaining := max 0 (max_requests - r.1),
     reset_at := wk.2,
     retry_after := if is_limited then retry_after else 0 }, r.2)

/-- Result of the (n+1)-th successive check_rate_limit call with identical
arguments, the state threaded through. -/
def RateLimitService.check_n (cache : RedisState)
    (max_requests window_seconds : ℤ) (key : String) (now : ℚ) :
    ℕ → RateLimitResult × RedisState
  | 0 => RateLimitService.check_rate_limit cache max_requests window_seconds key now
  | n + 1 =>
    RateLimitService.check_n
      (RateLimitService.check_rate_limit cache max_requests window_seconds key now).2
      max_requests window_seconds key now n

/-- PermissionService._get_cache_key: "permissions:{user_id}". -/
def PermissionService.get_cache_key (user_id : String) : String :=
  "permissions:" ++ user_id

/-- PermissionService.get_user_permissions with a cache attached: try the cache
first; on miss query the repository and store the result with sliding
expiration CACHE_TTL_SECONDS = 300. -/
def PermissionService.get_user_permissions (repo : String → List String)
    (c : Cache (List String)) (user_id : String) (now : ℚ) :
    List String × Cache (List String) :=
  let cache_key := PermissionService.get_cache_key user_id
  match InMemoryCacheService.get c cache_key now with
  | (some cached, c1) => (cached, c1)
  | (none, c1) =>
    let permissions := repo user_id
    (permissions, InMemoryCacheService.set c1 cache_key permissions (some 300) now)

/-- PermissionService.has_any_permission: OR semantics,
bool(user_permissions & set(permissions)). -/
def PermissionService.has_any_permission (repo : String → List String)
    (c : Cache (List String)) (user_id : String) (permissions : List String)
    (now : ℚ) : Bool × Cache (List String) :=
  let r := PermissionService.get_user_permissions repo c user_id now
  (r.1.any (fun p => permissions.contains p), r.2)

/-- PermissionService.has_all_permissions: AND semantics,
set(permissions).issubset(user_permissions). -/
def PermissionService.has_all_permissions (repo : String → List String)
    (c : Cache (List String)) (user_id : String) (permissions : List String)
    (now : ℚ) : Bool × Cache (List String) :=
  let r := PermissionService.get_user_permissions repo c user_id now
  (permissions.all (fun p => r.1.contains p), r.2)

/-- PermissionService.invalidate_user_permissions_cache: remove
"permissions:{user_id}" from the cache. -/
def PermissionService.invalidate_user_permissions_cache
    (c : Cache (List String)) (user_id : String) : Cache (List String) :=
  (InMemoryCacheService.remove c (PermissionService.get_cache_key user_id)).2

/-- One in-memory cache operation, tagged with the wall-clock instant at which
it runs. -/
inductive MemOp (α : Type) where
  | get (k : String)
  | set (k : String) (v : α) (sliding : Option ℤ)
  | refresh (k : String)
  | remove (k : String)
  | exists_key (k : String)
  | clear
  | cleanup

/-- Run one timed operation against the in-memory cache, keeping only the
resulting state. -/
def runOp {α : Type} (c : Cache α) : ℚ × MemOp α → Cache α
  | (now, MemOp.get k) => (InMemoryCacheService.get c k now).2
  | (now, MemOp.set k v s) => InMemoryCacheService.set c k v s now
  | (now, MemOp.refresh k) => (InMemoryCacheService.refresh c k now).2
  | (_, MemOp.remove k) => (InMemoryCacheService.remove c k).2
  | (now, MemOp.exists_key k) => (InMemoryCacheService.exists_key c k now).2
  | (_, MemOp.clear) => InMemoryCacheService.clear c
  | (now, MemOp.cleanup) => InMemoryCacheService.cleanup_expired c now

/-- Run a timed operation sequence left to right. -/
def runOps {α : Type} (c : Cache α) : List (ℚ × MemOp α) → Cache α
  | [] => c
  | op :: ops => runOps (runOp c op) ops

/-- The operation is neither remove k nor clear (the exclusions named by the
claim as stated). -/
def allowedWithoutRemoveClear {α : Type} (k : String) (op : ℚ × MemOp α) : Bool :=
  match op.2 with
  | MemOp.remove k2 => decide (k2 ≠ k)
  | MemOp.clear => false
  | _ => true

/-- The operation is none of remove k, clear, set k (the exclusions needed for
the entry under k to survive untouched). -/
def preservesKey {α : Type} (k : String) (op : ℚ × MemOp α) : Bool :=
  match op.2 with
  | MemOp.remove k2 => decide (k2 ≠ k)
  | MemOp.set k2 _ _ => decide (k2 ≠ k)
  | MemOp.clear => false
  | _ => true

/-- Successive gets at the listed instants: true when the instants are
nondecreasing from the start time and consecutive gaps stay below s. -/
def spaced (s : ℤ) : ℚ → List ℚ → Bool
  | _, [] => true
  | t, u :: us => decide (t ≤ u) && decide (u - t < (s : ℚ)) && spaced s u us

/-- Perform a get at each listed instant, collecting the returned values and
threading the cache state. -/
def getChain {α : Type} : Cache α → String → List ℚ → List (Option α) × Cache α
  | c, _, [] => ([], c)
  | c, k, t :: ts =>
    let r := InMemoryCacheService.get c k t
    let rest := getChain r.2 k ts
    (r.1 :: rest.1, rest.2)

theorem KvMap.insert_self {β : Type} (m : KvMap β) (k : String) (v : β) :
    KvMap.insert m k v k = some v := by
  simp [KvMap.insert]

theorem KvMap.insert_ne {β : Type} (m : KvMap β) (k k2 : String) (v : β)
    (h : k2 ≠ k) : KvMap.insert m k v k2 = m k2 := by
  simp [KvMap.insert, h]

theorem KvMap.erase_self {β : Type} (m : KvMap β) (k : String) :
    KvMap.erase m k k = none := by
  simp [KvMap.erase]

theorem KvMap.erase_ne {β : Type} (m : KvMap β) (k k2 : String)
    (h : k2 ≠ k) : KvMap.erase m k k2 = m k2 := by
  simp [KvMap.erase, h]

/-- C1: the cache contract's increment is implemented by the Redis backend
only. RedisCacheService defines increment (and there it does return previous
value plus delta, 0 for an absent key), but neither InMemoryCacheService nor
the ICacheService abstract base class defines an increment method at all, so
the in-process backend cannot serve it. -/
theorem increment_only_on_redis_backend :
    ("increment" ∈ RedisCacheService.methods ∧
     "increment" ∉ InMemoryCacheService.methods ∧
     "increment" ∉ ICacheService.methods) ∧
    ∀ (st : RedisState) (k : String) (delta : ℤ) (ttl : Option ℤ) (now : ℚ),
      (RedisCacheService.increment st k delta ttl now).1
        = (match st k with | none => 0 | some e => e.value) + delta := by
  constructor
  · decide
  · intro st k delta ttl now
    cases h : st k <;> cases ttl <;>
      simp [RedisCacheService.increment, RedisCacheService.incrby, h]
    split <;> omega

/-- C2 counterexample: an unsupported cache backend name does not raise; the
factory silently returns the in-memory backend. -/
theorem unsupported_backend_silently_defaults :
    get_cache_service "memcached" = Except.ok CacheBackend.memory := rfl

/-- C2 (amended): selecting the cache service never raises, eagerly or
otherwise: a configured name lowering to "redis" selects the Redis backend and
every other name, supported or not, silently selects the in-memory default. -/
theorem get_cache_service_never_errors :
    ∀ s : String,
      (pyLower s = "redis" → get_cache_service s = Except.ok CacheBackend.redis) ∧
      (pyLower s ≠ "redis" → get_cache_service s = Except.ok CacheBackend.memory) := by
  intro s
  constructor <;> intro h <;> simp [get_cache_service, h]

/-- C2 witness: the amended dichotomy at the inputs "Redis" and "memcached". -/
theorem get_cache_service_never_errors_witness :
    get_cache_service "Redis" = Except.ok CacheBackend.redis ∧
    get_cache_service "memcached" = Except.ok CacheBackend.memory :=
  ⟨(get_cache_service_never_errors "Redis").1 (by decide),
   (get_cache_service_never_errors "memcached").2 (by decide)⟩

/-- C10: with an empty required-permission list, has_all_permissions is true
(empty set is a subset of every set) and has_any_permission is false (empty
intersection), for every repository, cache state and user. -/
theorem empty_permission_list_semantics :
    ∀ (repo : String → List String) (c : Cache (List String)) (u : String)
      (now : ℚ),
      (PermissionService.has_all_permissions repo c u [] now).1 = true ∧
      (PermissionService.has_any_permission repo c u [] now).1 = false := by
  intro repo c u now
  simp [PermissionService.has_all_permissions, PermissionService.has_any_permission]

/-- C7: has_any_permission is true iff the user's permission set (as produced
by get_user_permissions) meets the given list, has_all_permissions is true iff
the given list is contained in that set; instantiated on user permissions
A, B as the spec's example demands. -/
theorem permission_or_and_semantics :
    (∀ (repo : String → List String) (c : Cache (List String)) (u : String)
       (ps : List String) (now : ℚ),
      ((PermissionService.has_any_permission repo c u ps now).1 = true ↔
        ∃ p, p ∈ (PermissionService.get_user_permissions repo c u now).1 ∧ p ∈ ps) ∧
      ((PermissionService.has_all_permissions repo c u ps now).1 = true ↔
        ∀ p ∈ ps, p ∈ (PermissionService.get_user_permissions repo c u now).1)) ∧
    ((PermissionService.has_any_permission (fun _ => ["A", "B"]) KvMap.empty
        "u" ["B", "C"] 0).1 = true ∧
     (PermissionService.has_all_permissions (fun _ => ["A", "B"]) KvMap.empty
        "u" ["B", "C"] 0).1 = false ∧
     (PermissionService.has_all_permissions (fun _ => ["A", "B"]) KvMap.empty
        "u" ["A", "B"] 0).1 = true) := by
  constructor
  · intro repo c u ps now
    constructor
    · simp [PermissionService.has_any_permission, List.any_eq_true]
    · simp [PermissionService.has_all_permissions, List.all_eq_true]
  · refine ⟨by decide, by decide, by decide⟩

/-- C8: invalidate_user_permissions_cache removes "permissions:{u}", so the
following get_user_permissions misses the cache, returns exactly the
repository's set, and stores it under that key with sliding expiration 300. -/
theorem invalidate_then_get_requeries :
    ∀ (repo : String → List String) (c : Cache (List String)) (u : String)
      (now : ℚ),
      (InMemoryCacheService.get
        (PermissionService.invalidate_user_permissions_cache c u)
        (PermissionService.get_cache_key u) now).1 = none ∧
      (PermissionService.get_user_permissions repo
        (PermissionService.invalidate_user_permissions_cache c u) u now).1
        = repo u ∧
      (PermissionService.get_user_permissions repo
        (PermissionService.invalidate_user_permissions_cache c u) u now).2
        (PermissionService.get_cache_key u)
        = some ⟨repo u, some 300, now⟩ := by
  intro repo c u now
  have hkey : PermissionService.invalidate_user_permissions_cache c u
      (PermissionService.get_cache_key u) = none := by
    unfold PermissionService.invalidate_user_permissions_cache
      InMemoryCacheService.remove
    cases h : c (PermissionService.get_cache_key u) <;> simp [h, KvMap.erase]
  refine ⟨?_, ?_, ?_⟩ <;>
    simp [InMemoryCacheService.get, PermissionService.get_user_permissions,
      hkey, InMemoryCacheService.set, KvMap.insert]

/-- C4: increment with a TTL applies that TTL exactly when the value it
returns equals delta (the key was just created, or held 0); otherwise the
recorded expiry is untouched. Hence two increments by 1 on a fresh key set the
expiry on the first call only: the key expires at first-call time plus T, not
at second-call time plus T. -/
theorem increment_first_write_ttl :
    (∀ (st : RedisState) (k : String) (d T : ℤ) (now : ℚ),
      expiryOf (RedisCacheService.increment st k d (some T) now).2 k
        = if (RedisCacheService.increment st k d (some T) now).1 = d
          then some (now + (T : ℚ)) else expiryOf st k) ∧
    (∀ (st : RedisState) (k : String) (T : ℤ) (t1 t2 : ℚ),
      st k = none → t1 < t2 → t2 ≤ t1 + (T : ℚ) →
      (RedisCacheService.increment st k 1 (some T) t1).1 = 1 ∧
      (RedisCacheService.increment
        (RedisCacheService.increment st k 1 (some T) t1).2 k 1 (some T) t2).1 = 2 ∧
      expiryOf (RedisCacheService.increment
        (RedisCacheService.increment st k 1 (some T) t1).2 k 1 (some T) t2).2 k
        = some (t1 + (T : ℚ)) ∧
      expiryOf (RedisCacheService.increment
        (RedisCacheService.increment st k 1 (some T) t1).2 k 1 (some T) t2).2 k
        ≠ some (t2 + (T : ℚ))) := by
  constructor
  · intro st k d T now
    cases h : st k with
    | none =>
      simp [RedisCacheService.increment, RedisCacheService.incrby, h,
        RedisCacheService.expire, expiryOf, KvMap.insert]
    | some e =>
      by_cases hv : e.value + d = d
      · simp [RedisCacheService.increment, RedisCacheService.incrby, h, hv,
          RedisCacheService.expire, expiryOf, KvMap.insert]
      · simp [RedisCacheService.increment, RedisCacheService.incrby, h, hv,
          RedisCacheService.expire, expiryOf, KvMap.insert]
  · intro st k T t1 t2 h hlt _hle
    have h2 : (RedisCacheService.increment st k 1 (some T) t1).2 k
        = some ⟨1, some (t1 + (T : ℚ))⟩ := by
      simp [RedisCacheService.increment, RedisCacheService.incrby, h,
        RedisCacheService.expire, KvMap.insert]
    have hsecond : ∀ st1 : RedisState, st1 k = some ⟨1, some (t1 + (T : ℚ))⟩ →
        (RedisCacheService.increment st1 k 1 (some T) t2).1 = 2 ∧
        expiryOf (RedisCacheService.increment st1 k 1 (some T) t2).2 k
          = some (t1 + (T : ℚ)) := by
      intro st1 h1
      constructor
      · norm_num [RedisCacheService.increment, RedisCacheService.incrby, h1]
      · norm_num [RedisCacheService.increment, RedisCacheService.incrby, h1,
          expiryOf, KvMap.insert]
    refine ⟨?_, (hsecond _ h2).1, (hsecond _ h2).2, ?_⟩
    · simp [RedisCacheService.increment, RedisCacheService.incrby, h]
    · rw [(hsecond _ h2).2]
      simp only [ne_eq, Option.some.injEq]
      intro hcontr
      have : t1 = t2 := by linarith
      exact absurd this (ne_of_lt hlt)

/-- C4 witness: the two-call first-write-TTL facts at a fresh key, T = 10,
call times 0 and 1. -/
theorem increment_first_write_ttl_witness :
    (RedisCacheService.increment KvMap.empty "k" 1 (some 10) 0).1 = 1 ∧
    (RedisCacheService.increment
      (RedisCacheService.increment KvMap.empty "k" 1 (some 10) 0).2 "k" 1
      (some 10) 1).1 = 2 ∧
    expiryOf (RedisCacheService.increment
      (RedisCacheService.increment KvMap.empty "k" 1 (some 10) 0).2 "k" 1
      (some 10) 1).2 "k" = some ((0 : ℚ) + ((10 : ℤ) : ℚ)) ∧
    expiryOf (RedisCacheService.increment
      (RedisCacheService.increment KvMap.empty "k" 1 (some 10) 0).2 "k" 1
      (some 10) 1).2 "k" ≠ some ((1 : ℚ) + ((10 : ℤ) : ℚ)) :=
  increment_first_write_ttl.2 KvMap.empty "k" 10 0 1 rfl (by norm_num) (by norm_num)

/-- getChain keeps returning the stored value as long as the entry stays live:
each get arrives no more than s after the previous access, so the entry never
expires and every get refreshes last_accessed. -/
theorem getChain_live {α : Type} (k : String) (v : α) (s : ℤ) :
    ∀ (ts : List ℚ) (c : Cache α) (t : ℚ),
      c k = some ⟨v, some s, t⟩ → spaced s t ts = true →
      (getChain c k ts).1 = ts.map (fun _ => some v) := by
  intro ts
  induction ts with
  | nil => intro c t _ _; simp [getChain]
  | cons u us ih =>
    intro c t h hs
    simp [spaced, Bool.and_eq_true, decide_eq_true_eq] at hs
    obtain ⟨⟨htu, hlt⟩, hrest⟩ := hs
    have hexp : (⟨v, some s, t⟩ : CacheEntry α).is_expired u = false := by
      simp [CacheEntry.is_expired, decide_eq_false_iff_not]
      linarith
    have hstep : InMemoryCacheService.get c k u
        = (some v, KvMap.insert c k ⟨v, some s, u⟩) := by
      simp [InMemoryCacheService.get, h, hexp, CacheEntry.refresh]
    simp only [getChain, hstep]
    simp only [List.map_cons, List.cons.injEq, true_and]
    exact ih _ u (by simp [KvMap.insert]) hrest

/-- C5: is_expired holds iff a sliding expiration is set and strictly exceeded
by the inactivity span; get purges an expired entry and reports a miss; get on
a live entry returns its value and resets last_accessed to now; consequently
gets spaced less than s apart never lose a key stored with sliding
expiration s. -/
theorem sliding_expiration_semantics :
    (∀ (α : Type) (e : CacheEntry α) (now : ℚ),
      e.is_expired now = true ↔
        ∃ s, e.sliding_expiration = some s ∧ now - e.last_accessed > (s : ℚ)) ∧
    (∀ (α : Type) (c : Cache α) (k : String) (e : CacheEntry α) (now : ℚ),
      c k = some e → e.is_expired now = true →
      InMemoryCacheService.get c k now = (none, KvMap.erase c k)) ∧
    (∀ (α : Type) (c : Cache α) (k : String) (e : CacheEntry α) (now : ℚ),
      c k = some e → e.is_expired now = false →
      (InMemoryCacheService.get c k now).1 = some e.value ∧
      (InMemoryCacheService.get c k now).2 k
        = some { e with last_accessed := now }) ∧
    (∀ (α : Type) (k : String) (v : α) (s : ℤ) (t0 : ℚ) (ts : List ℚ),
      spaced s t0 ts = true →
      (getChain (InMemoryCacheService.set KvMap.empty k v (some s) t0) k ts).1
        = ts.map (fun _ => some v)) := by
  refine ⟨?_, ?_, ?_, ?_⟩
  · intro α e now
    cases hs : e.sliding_expiration <;>
      simp [CacheEntry.is_expired, hs, decide_eq_true_eq]
  · intro α c k e now h he
    simp [InMemoryCacheService.get, h, he]
  · intro α c k e now h he
    simp [InMemoryCacheService.get, h, he, CacheEntry.refresh, KvMap.insert]
  · intro α k v s t0 ts hs
    exact getChain_live k v s ts _ t0 (by simp [InMemoryCacheService.set, KvMap.insert]) hs

/-- C5 witness: an entry with sliding expiration 10 written at time 0 is
purged by a get at time 20, still live for a get at time 9, and a chain of
gets at times 5 and 9 keeps returning the value. -/
theorem sliding_expiration_semantics_witness :
    (InMemoryCacheService.get
      (KvMap.insert KvMap.empty "k" (⟨5, some 10, 0⟩ : CacheEntry ℤ)) "k" 20
      = (none, KvMap.erase
          (KvMap.insert KvMap.empty "k" (⟨5, some 10, 0⟩ : CacheEntry ℤ)) "k")) ∧
    ((InMemoryCacheService.get
      (KvMap.insert KvMap.empty "k" (⟨5, some 10, 0⟩ : CacheEntry ℤ)) "k" 9).1
      = some (⟨5, some 10, 0⟩ : CacheEntry ℤ).value) ∧
    ((getChain (InMemoryCacheService.set KvMap.empty "k" (5 : ℤ) (some 10) 0)
      "k" [5, 9]).1 = [(5 : ℚ), 9].map (fun _ => some (5 : ℤ))) :=
  ⟨sliding_expiration_semantics.2.1 ℤ _ "k" ⟨5, some 10, 0⟩ 20
      (by simp [KvMap.insert]) (by norm_num [CacheEntry.is_expired]),
   (sliding_expiration_semantics.2.2.1 ℤ _ "k" ⟨5, some 10, 0⟩ 9
      (by simp [KvMap.insert]) (by norm_num [CacheEntry.is_expired])).1,
   sliding_expiration_semantics.2.2.2 ℤ "k" 5 10 0 [5, 9] (by norm_num [spaced])⟩

/-- C9 counterexample: a set on the same key is neither a remove of that key
nor a clear, yet after it get no longer returns the original value. -/
theorem no_expiration_claim_counterexample :
    ([((1 : ℚ), MemOp.set "k" (1 : ℤ) none)].all
        (allowedWithoutRemoveClear "k") = true) ∧
    (InMemoryCacheService.get
      (runOps (InMemoryCacheService.set KvMap.empty "k" (0 : ℤ) none 0)
        [((1 : ℚ), MemOp.set "k" (1 : ℤ) none)]) "k" 2).1 ≠ some 0 ∧
    (InMemoryCacheService.get
      (runOps (InMemoryCacheService.set KvMap.empty "k" (0 : ℤ) none 0)
        [((1 : ℚ), MemOp.set "k" (1 : ℤ) none)]) "k" 2).1 = some 1 := by
  exact ⟨by decide, by decide, by decide⟩

/-- One operation that is not remove k, clear or set k leaves the
no-expiration entry under k in place, possibly with a fresher last_accessed. -/
theorem runOp_preserves {α : Type} (c : Cache α) (k : String) (v : α) (t : ℚ)
    (op : ℚ × MemOp α) (h : c k = some ⟨v, none, t⟩)
    (hop : preservesKey k op = true) :
    ∃ t1, runOp c op k = some ⟨v, none, t1⟩ := by
  obtain ⟨now, o⟩ := op
  cases o with
  | get k2 =>
    by_cases hk : k2 = k
    · subst hk
      exact ⟨now, by simp [runOp, InMemoryCacheService.get, h,
        CacheEntry.is_expired, CacheEntry.refresh, KvMap.insert]⟩
    · refine ⟨t, ?_⟩
      have hne : k ≠ k2 := fun hh => hk hh.symm
      cases h2 : c k2 with
      | none => simp [runOp, InMemoryCacheService.get, h2, h]
      | some e =>
        by_cases hexp : e.is_expired now
        · simp [runOp, InMemoryCacheService.get, h2, hexp, KvMap.erase, hne, h]
        · simp [runOp, InMemoryCacheService.get, h2, hexp, KvMap.insert, hne, h]
  | set k2 v2 s2 =>
    have hne : k ≠ k2 := fun hh => (of_decide_eq_true hop) hh.symm
    exact ⟨t, by simp [runOp, InMemoryCacheService.set, KvMap.insert, hne, h]⟩
  | refresh k2 =>
    by_cases hk : k2 = k
    · subst hk
      exact ⟨now, by simp [runOp, InMemoryCacheService.refresh, h,
        CacheEntry.is_expired, CacheEntry.refresh, KvMap.insert]⟩
    · refine ⟨t, ?_⟩
      have hne : k ≠ k2 := fun hh => hk hh.symm
      cases h2 : c k2 with
      | none => simp [runOp, InMemoryCacheService.refresh, h2, h]
      | some e =>
        by_cases hexp : e.is_expired now
        · simp [runOp, InMemoryCacheService.refresh, h2, hexp, KvMap.erase, hne, h]
        · simp [runOp, InMemoryCacheService.refresh, h2, hexp, KvMap.insert, hne, h]
  | remove k2 =>
    have hne : k ≠ k2 := fun hh => (of_decide_eq_true hop) hh.symm
    refine ⟨t, ?_⟩
    cases h2 : c k2 with
    | none => simp [runOp, InMemoryCacheService.remove, h2, h]
    | some e => simp [runOp, InMemoryCacheService.remove, h2, KvMap.erase, hne, h]
  | exists_key k2 =>
    by_cases hk : k2 = k
    · subst hk
      exact ⟨t, by simp [runOp, InMemoryCacheService.exists_key, h,
        CacheEntry.is_expired]⟩
    · refine ⟨t, ?_⟩
      have hne : k ≠ k2 := fun hh => hk hh.symm
      cases h2 : c k2 with
      | none => simp [runOp, InMemoryCacheService.exists_key, h2, h]
      | some e =>
        by_cases hexp : e.is_expired now
        · simp [runOp, InMemoryCacheService.exists_key, h2, hexp, KvMap.erase, hne, h]
        · simp [runOp, InMemoryCacheService.exists_key, h2, hexp, h]
  | clear => simp [preservesKey] at hop
  | cleanup =>
    exact ⟨t, by simp [runOp, InMemoryCacheService.cleanup_expired, h,
      CacheEntry.is_expired]⟩

/-- Sequence version of runOp_preserves, by induction over the operations. -/
theorem runOps_preserves {α : Type} (k : String) (v : α) :
    ∀ (ops : List (ℚ × MemOp α)) (c : Cache α) (t : ℚ),
      c k = some ⟨v, none, t⟩ → ops.all (preservesKey k) = true →
      ∃ t1, runOps c ops k = some ⟨v, none, t1⟩ := by
  intro ops
  induction ops with
  | nil => intro c t h _; exact ⟨t, h⟩
  | cons op rest ih =>
    intro c t h hall
    simp [List.all_cons, Bool.and_eq_true] at hall
    obtain ⟨t1, h1⟩ := runOp_preserves c k v t op h hall.1
    exact ih (runOp c op) t1 h1 (by simpa using hall.2)

/-- C9 (amended): an entry stored with sliding_expiration none survives every
operation sequence containing no remove of its key, no clear, and no set of
its key (a set would overwrite the value, which is what the counterexample
exhibits): the sweep and the lazy expiry checks never evict it, it stays
present with its value, and get returns that value at every instant. -/
theorem no_expiration_entry_persists :
    ∀ (α : Type) (c : Cache α) (k : String) (v : α) (t0 : ℚ)
      (ops : List (ℚ × MemOp α)),
      c k = some ⟨v, none, t0⟩ →
      ops.all (preservesKey k) = true →
      (∃ t1, runOps c ops k = some ⟨v, none, t1⟩) ∧
      ∀ now, (InMemoryCacheService.get (runOps c ops) k now).1 = some v := by
  intro α c k v t0 ops h hall
  obtain ⟨t1, h1⟩ := runOps_preserves k v ops c t0 h hall
  refine ⟨⟨t1, h1⟩, ?_⟩
  intro now
  simp [InMemoryCacheService.get, h1, CacheEntry.is_expired]

/-- C9 witness: a no-expiration entry under "k" survives a sequence of gets,
a foreign set, the sweep, a foreign remove, exists and refresh. -/
theorem no_expiration_entry_persists_witness :
    (∃ t1, runOps (KvMap.insert KvMap.empty "k" (⟨7, none, 0⟩ : CacheEntry ℤ))
      [(1, MemOp.set "other" 1 (some 5)), (2, MemOp.get "k"), (3, MemOp.cleanup),
       (4, MemOp.remove "other"), (5, MemOp.exists_key "k"),
       (6, MemOp.refresh "k")] "k" = some ⟨7, none, t1⟩) ∧
    (InMemoryCacheService.get
      (runOps (KvMap.insert KvMap.empty "k" (⟨7, none, 0⟩ : CacheEntry ℤ))
        [(1, MemOp.set "other" 1 (some 5)), (2, MemOp.get "k"), (3, MemOp.cleanup),
         (4, MemOp.remove "other"), (5, MemOp.exists_key "k"),
         (6, MemOp.refresh "k")]) "k" 100).1 = some 7 := by
  have h := no_expiration_entry_persists ℤ
    (KvMap.insert KvMap.empty "k" (⟨7, none, 0⟩ : CacheEntry ℤ)) "k" 7 0
    [(1, MemOp.set "other" 1 (some 5)), (2, MemOp.get "k"), (3, MemOp.cleanup),
     (4, MemOp.remove "other"), (5, MemOp.exists_key "k"),
     (6, MemOp.refresh "k")] (by decide) (by decide)
  exact ⟨h.1, h.2 100⟩

theorem pyInt_eq_floor (q : ℚ) (h : 0 ≤ q) : pyInt q = ⌊q⌋ := by
  simp [pyInt, h]

/-- Euclidean division by a positive integer computes the floor of the exact
rational quotient. -/
theorem int_ediv_eq_floor (q : ℚ) (w : ℤ) (hw : 0 < w) :
    ⌊q⌋ / w = ⌊q / (w : ℚ)⌋ := by
  have hw' : (0 : ℚ) < (w : ℚ) := by exact_mod_cast hw
  apply le_antisymm
  · rw [Int.le_floor, le_div_iff₀ hw']
    calc ((⌊q⌋ / w : ℤ) : ℚ) * (w : ℚ)
        = (((⌊q⌋ / w) * w : ℤ) : ℚ) := by push_cast; ring
      _ ≤ ((⌊q⌋ : ℤ) : ℚ) := by
          exact_mod_cast Int.ediv_mul_le ⌊q⌋ (ne_of_gt hw)
      _ ≤ q := Int.floor_le q
  · rw [Int.le_ediv_iff_mul_le hw, Int.le_floor]
    push_cast
    calc (⌊q / (w : ℚ)⌋ : ℚ) * (w : ℚ)
        ≤ (q / (w : ℚ)) * (w : ℚ) :=
          mul_le_mul_of_nonneg_right (Int.floor_le _) (le_of_lt hw')
      _ = q := div_mul_cancel₀ q (ne_of_gt hw')

/-- C6: the window start computed from the truncated clock equals
floor(now / windowSeconds) * windowSeconds; requests at 59.9 and 60.1 with a
60-second window receive different cache keys and, starting from a fresh
state, are counted independently (both see a count of 1, so remaining = 4). -/
theorem fixed_window_boundary :
    (∀ (w : ℤ) (now : ℚ), 0 < w → 0 ≤ now →
      RateLimitService.window_start w now = ⌊now / (w : ℚ)⌋ * w) ∧
    (RateLimitService.get_window_key "client" 60 (mkRat 599 10)).1
      ≠ (RateLimitService.get_window_key "client" 60 (mkRat 601 10)).1 ∧
    (RateLimitService.check_rate_limit KvMap.empty 5 60 "client"
      (mkRat 599 10)).1.remaining = 4 ∧
    (RateLimitService.check_rate_limit
      (RateLimitService.check_rate_limit KvMap.empty 5 60 "client"
        (mkRat 599 10)).2 5 60 "client" (mkRat 601 10)).1.remaining = 4 := by
  refine ⟨?_, by decide, by decide, by decide⟩
  intro w now hw hnow
  unfold RateLimitService.window_start
  rw [pyInt_eq_floor now hnow, Int.fdiv_eq_ediv _ (le_of_lt hw),
    int_ediv_eq_floor now w hw]

/-- C6 witness: the window-start formula at w = 60, now = 59.9. -/
theorem fixed_window_boundary_witness :
    0 < (60 : ℤ) ∧ 0 ≤ mkRat 599 10 ∧
    RateLimitService.window_start 60 (mkRat 599 10)
      = ⌊mkRat 599 10 / ((60 : ℤ) : ℚ)⌋ * 60 :=
  ⟨by decide, by decide,
   fixed_window_boundary.1 60 (mkRat 599 10) (by decide) (by decide)⟩

/-- C3: check_rate_limit returns is_limited = (newCount > maxRequests),
remaining = max(0, maxRequests - newCount) and retry_after =
max(0, resetAt - now) when limited, 0 otherwise — newCount being the result of
the atomic increment at ttl = windowSeconds + 1 — and retry_after is strictly
positive whenever limited; with maxRequests = 5 the 5th request of a fresh
window is not limited with remaining 0, the 6th is limited with remaining 0
and positive retry_after. -/
theorem check_rate_limit_result_spec :
    (∀ (cache : RedisState) (max_requests window_seconds : ℤ) (key : String)
       (now : ℚ), 0 < window_seconds → 0 ≤ now →
      ((RateLimitService.check_rate_limit cache max_requests window_seconds key
          now).1.is_limited
        = decide ((RedisCacheService.increment cache
            (RateLimitService.get_window_key key window_seconds now).1 1
            (some (window_seconds + 1)) now).1 > max_requests)) ∧
      ((RateLimitService.check_rate_limit cache max_requests window_seconds key
          now).1.remaining
        = max 0 (max_requests - (RedisCacheService.increment cache
            (RateLimitService.get_window_key key window_seconds now).1 1
            (some (window_seconds + 1)) now).1)) ∧
      ((RateLimitService.check_rate_limit cache max_requests window_seconds key
          now).1.retry_after
        = if (RedisCacheService.increment cache
              (RateLimitService.get_window_key key window_seconds now).1 1
              (some (window_seconds + 1)) now).1 > max_requests
          then max 0 ((RateLimitService.get_window_key key window_seconds now).2
              - pyInt now)
          else 0) ∧
      ((RateLimitService.check_rate_limit cache max_requests window_seconds key
          now).1.is_limited = true →
        0 < (RateLimitService.check_rate_limit cache max_requests window_seconds
          key now).1.retry_after)) ∧
    ((RateLimitService.check_n KvMap.empty 5 60 "client" 0 4).1.is_limited
        = false ∧
     (RateLimitService.check_n KvMap.empty 5 60 "client" 0 4).1.remaining = 0 ∧
     (RateLimitService.check_n KvMap.empty 5 60 "client" 0 5).1.is_limited
        = true ∧
     (RateLimitService.check_n KvMap.empty 5 60 "client" 0 5).1.remaining = 0 ∧
     0 < (RateLimitService.check_n KvMap.empty 5 60 "client" 0 5).1.retry_after)
    := by
  constructor
  · intro cache max_requests window_seconds key now hw hnow
    by_cases hn : (RedisCacheService.increment cache
        (RateLimitService.get_window_key key window_seconds now).1 1
        (some (window_seconds + 1)) now).1 > max_requests
    · have h3 : (RateLimitService.check_rate_limit cache max_requests
          window_seconds key now).1.retry_after
          = max 0 ((RateLimitService.get_window_key key window_seconds now).2
              - pyInt now) := by
        simp [RateLimitService.check_rate_limit, hn]
      have hfd : Int.fdiv (pyInt now) window_seconds
          = pyInt now / window_seconds :=
        Int.fdiv_eq_ediv (pyInt now) (le_of_lt hw)
      refine ⟨by simp [RateLimitService.check_rate_limit],
        by simp [RateLimitService.check_rate_limit],
        by rw [h3, if_pos hn], ?_⟩
      intro _
      rw [h3]
      have hdm : window_seconds * (pyInt now / window_seconds)
          + pyInt now % window_seconds = pyInt now :=
        Int.ediv_add_emod (pyInt now) window_seconds
      have hmlt : pyInt now % window_seconds < window_seconds :=
        Int.emod_lt_of_pos (pyInt now) hw
      have hc : (pyInt now / window_seconds) * window_seconds
          = window_seconds * (pyInt now / window_seconds) := mul_comm _ _
      have hkey : 0 < (pyInt now / window_seconds) * window_seconds
          + window_seconds - pyInt now := by linarith
      have hr2 : (RateLimitService.get_window_key key window_seconds now).2
          = (pyInt now / window_seconds) * window_seconds + window_seconds := by
        simp [RateLimitService.get_window_key, RateLimitService.window_start, hfd]
      rw [hr2]
      exact lt_max_iff.mpr (Or.inr hkey)
    · refine ⟨by simp [RateLimitService.check_rate_limit],
        by simp [RateLimitService.check_rate_limit], ?_, ?_⟩
      · simp [RateLimitService.check_rate_limit, hn]
      · intro hlim
        exfalso
        have : decide ((RedisCacheService.increment cache
            (RateLimitService.get_window_key key window_seconds now).1 1
            (some (window_seconds + 1)) now).1 > max_requests) = true := by
          simpa [RateLimitService.check_rate_limit] using hlim
        exact hn (of_decide_eq_true this)
  · exact ⟨by decide, by decide, by decide, by decide, by decide⟩

/-- C3 witness: the field equations at a fresh cache, limits 5/60, time 0. -/
theorem check_rate_limit_result_spec_witness :
    0 < (60 : ℤ) ∧ 0 ≤ (0 : ℚ) ∧
    (((RateLimitService.check_rate_limit KvMap.empty 5 60 "client"
        0).1.is_limited
      = decide ((RedisCacheService.increment KvMap.empty
          (RateLimitService.get_window_key "client" 60 0).1 1
          (some (60 + 1)) 0).1 > 5)) ∧
     ((RateLimitService.check_rate_limit KvMap.empty 5 60 "client"
        0).1.remaining
      = max 0 (5 - (RedisCacheService.increment KvMap.empty
          (RateLimitService.get_window_key "client" 60 0).1 1
          (some (60 + 1)) 0).1)) ∧
     ((RateLimitService.check_rate_limit KvMap.empty 5 60 "client"
        0).1.retry_after
      = if (RedisCacheService.increment KvMap.empty
            (RateLimitService.get_window_key "client" 60 0).1 1
            (some (60 + 1)) 0).1 > 5
        then max 0 ((RateLimitService.get_window_key "client" 60 0).2 - pyInt 0)
        else 0) ∧
     ((RateLimitService.check_rate_limit KvMap.empty 5 60 "client"
        0).1.is_limited = true →
      0 < (RateLimitService.check_rate_limit KvMap.empty 5 60 "client"
        0).1.retry_after)) :=
  ⟨by decide, by decide,
   check_rate_limit_result_spec.1 KvMap.empty 5 60 "client" 0 (by decide)
     (by decide)⟩
